import Mathlib

/-!
Verification of the subbit-man liaison/reconciliation core.

Shallow embedding of the pure decision predicates (`decisions.js`), the
error classifier (`errors.js`), the liaison single-flight cycle
(`liaison.js`), and the gating / retry / batching logic of the L1 route
handlers (`l1Routes.js`, latest revision in the file unless noted).
JS `bigint` values are modelled as `Int`; JS strings as `String`;
fallible JS paths (a thrown exception) as `Except String _`.
-/

namespace SubbitMan

/-! ### JS string primitives

`String.prototype.includes` (substring test) and the pieces of the JS
`StringToBigInt` conversion used by `BigInt(string)`. -/

/-- `leadsWith pat l` is true when `pat` occurs at the head of `l`. -/
def leadsWith : List Char → List Char → Bool
  | [], _ => true
  | _ :: _, [] => false
  | p :: ps, c :: cs => p = c && leadsWith ps cs

/-- `hasSub l pat`: does `l` contain `pat` as a contiguous sublist? -/
def hasSub : List Char → List Char → Bool
  | [], pat => pat.isEmpty
  | c :: tl, pat => leadsWith pat (c :: tl) || hasSub tl pat

/-- JS `s.includes(pat)`. -/
def strIncludes (s pat : String) : Bool :=
  hasSub s.data pat.data

/-- Whitespace stripped by JS `StringToBigInt` (the common ASCII subset;
Unicode space variants do not occur in this repository's inputs).
Code points: space, tab, LF, CR, VT, FF. -/
def jsWhitespace (c : Char) : Bool :=
  c.toNat = 32 || c.toNat = 9 || c.toNat = 10 || c.toNat = 13 ||
    c.toNat = 11 || c.toNat = 12

/-- ASCII decimal digit, by code point. -/
def isDigitChar (c : Char) : Bool :=
  48 ≤ c.toNat && c.toNat ≤ 57

/-- Strip leading and trailing whitespace. -/
def jsTrim (l : List Char) : List Char :=
  ((l.dropWhile jsWhitespace).reverse.dropWhile jsWhitespace).reverse

/-- Numeric value of a decimal digit character. -/
def digitVal (c : Char) : Nat :=
  c.toNat - 48

/-- Value of a digit character in a given radix, if it is one
(`0`-`9`, `a`-`f`, `A`-`F`, by code point). -/
def radixDigitVal (radix : Nat) (c : Char) : Option Nat :=
  let v :=
    if 48 ≤ c.toNat ∧ c.toNat ≤ 57 then some (c.toNat - 48)
    else if 97 ≤ c.toNat ∧ c.toNat ≤ 102 then some (c.toNat - 97 + 10)
    else if 65 ≤ c.toNat ∧ c.toNat ≤ 70 then some (c.toNat - 65 + 10)
    else none
  match v with
  | some n => if n < radix then some n else none
  | none => none

/-- Read a non-empty digit string in the given radix. -/
def radixVal (radix : Nat) : List Char → Option Nat
  | [] => none
  | l => go radix l 0
where
  go (radix : Nat) : List Char → Nat → Option Nat
    | [], acc => some acc
    | c :: tl, acc =>
      match radixDigitVal radix c with
      | some d => go radix tl (acc * radix + d)
      | none => none

/-- JS `BigInt(string)` (the `StringToBigInt` conversion): trim
whitespace; empty means `0`; `0x`/`0o`/`0b` prefixes (unsigned only);
otherwise an optional sign followed by decimal digits. `none` models the
thrown `SyntaxError`. -/
def jsStringToBigInt (s : String) : Option Int :=
  match jsTrim s.data with
  | [] => some 0
  | c :: rest =>
    if c = '+' then (radixVal 10 rest).map Int.ofNat
    else if c = '-' then (radixVal 10 rest).map (fun n => -(n : Int))
    else if c = '0' then
      match rest with
      | [] => some 0
      | x :: rest2 =>
        if x = 'x' ∨ x = 'X' then (radixVal 16 rest2).map Int.ofNat
        else if x = 'o' ∨ x = 'O' then (radixVal 8 rest2).map Int.ofNat
        else if x = 'b' ∨ x = 'B' then (radixVal 2 rest2).map Int.ofNat
        else (radixVal 10 (c :: rest)).map Int.ofNat
    else (radixVal 10 (c :: rest)).map Int.ofNat

/-! ### decisions.js -/

/-- IOU data as read from the DB: `{ iouAmt?: string, sig?: string }`.
`none` models an absent (`undefined`) field. -/
structure IouData where
  iouAmt : Option String := none
  sig : Option String := none
deriving DecidableEq, Repr

/-- JS `x || dflt` on an optional string: `undefined` and `""` are falsy. -/
def jsOrElse (x : Option String) (dflt : String) : String :=
  match x with
  | none => dflt
  | some s => if s = "" then dflt else s

/-- The string tested by `!iouData.sig` (falsy iff empty). -/
def sigText (r : IouData) : String :=
  r.sig.getD ""

/-- `BigInt(iouData.iouAmt || "0")`, as used by both decision predicates. -/
def amtParse (r : IouData) : Option Int :=
  jsStringToBigInt (jsOrElse r.iouAmt "0")

/-- `shouldSettle(channelStateKind, iouData)` from decisions.js.
`Except.error` models the `SyntaxError` thrown by `BigInt` on a
malformed amount string. -/
def shouldSettle (channelStateKind : String) (iouData : Option IouData) :
    Except String Bool :=
  if channelStateKind ≠ "Closed" then .ok false
  else
    match iouData with
    | none => .ok false
    | some r =>
      match amtParse r with
      | none => .error "SyntaxError: cannot convert string to a BigInt"
      | some amt =>
        if amt ≤ 0 then .ok false
        else if sigText r = "" then .ok false
        else .ok true

/-- `shouldSub(iouData, currentSub, threshold)` from decisions.js. -/
def shouldSub (iouData : Option IouData) (currentSub threshold : Int) :
    Except String Bool :=
  match iouData with
  | none => .ok false
  | some r =>
    if sigText r = "" then .ok false
    else
      match amtParse r with
      | none => .error "SyntaxError: cannot convert string to a BigInt"
      | some iouAmt =>
        if iouAmt ≤ currentSub + threshold then .ok false
        else .ok true

/-! ### liaison.js — `runLiaisonCycle`

The handler guards on a module-level `running` flag, runs the three
steps (`sync`, `settle`, `subs`) in order inside a `try` whose `catch`
records the error, and resets the flag in `finally`.  Each step is an
HTTP self-injection; we model a step's outcome as `Except String α`
(`error` = the step threw before yielding a payload).  The returned
pair is (flag value after the call, returned result). -/

/-- Per-step result slots of one cycle, as accumulated by the handler. -/
structure CycleResults (α : Type) where
  sync : Option α := none
  settle : Option α := none
  subs : Option α := none
  error : Option String := none
deriving DecidableEq, Repr

/-- What `runLiaisonCycle` returns: the early `{ skipped: true, reason:
"already running" }` object, or the cycle report with its results. -/
inductive CycleReturn (α : Type) where
  | skipped
  | completed (results : CycleResults α)
deriving DecidableEq, Repr

/-- `runLiaisonCycle` from liaison.js, as a transformer of the `running`
flag.  The three step arguments are the outcomes the three injected
routes would produce if executed. -/
def runLiaisonCycle (running : Bool)
    (syncStep settleStep subsStep : Except String α) :
    Bool × CycleReturn α :=
  if running then (running, .skipped)
  else
    let r0 : CycleResults α := {}
    let results :=
      match syncStep with
      | .error e => { r0 with error := some e }
      | .ok s =>
        let r1 := { r0 with sync := some s }
        match settleStep with
        | .error e => { r1 with error := some e }
        | .ok t =>
          let r2 := { r1 with settle := some t }
          match subsStep with
          | .error e => { r2 with error := some e }
          | .ok u => { r2 with subs := some u }
    (false, .completed results)

/-! ### l1Routes.js — `sync-from-chain` retry loop

```
let subbits = [];
const maxAttempts = 5;
const delayMs = 3000;
for (let attempt = 1; attempt <= maxAttempts; attempt++) {
  subbits = await tx.validator.getStates(l, validatorAddress);
  if (subbits.length > 0) break;
  if (attempt < maxAttempts) await sleep(delayMs);
}
```

`fetch attempt` is the value `getStates` returns on the given (1-based)
attempt.  `retryLoop` returns (number of attempts made, total delay
slept in ms, final value of `subbits`); `fuel` is the number of
remaining loop iterations (`maxAttempts - attempt + 1`). -/

/-- One execution of the retry `for` loop starting at `attempt` with
`fuel` iterations left. -/
def retryLoop (fetch : Nat → List α) (delayMs : Nat) :
    Nat → Nat → Nat × Nat × List α
  | _, 0 => (0, 0, [])
  | attempt, fuel + 1 =>
    let subbits := fetch attempt
    if subbits.isEmpty then
      if fuel = 0 then (1, 0, subbits)
      else
        let rest := retryLoop fetch delayMs (attempt + 1) fuel
        (rest.1 + 1, delayMs + rest.2.1, rest.2.2)
    else (1, 0, subbits)

/-- The retry loop as configured in the handler: 5 attempts, 3000 ms. -/
def syncFetchStates (fetch : Nat → List α) : Nat × Nat × List α :=
  retryLoop fetch 3000 1 5

/-! ### l1Routes.js — `sync-from-chain` per-channel persistence

```
const results = await Promise.all(
  channelsForSync.map((ch) => {
    ...
    return fastify.putL1(keytag, [l1Subbit]).then(
      (r) => [ch.tag, r.kind === "Right" ? r.value : r.error],
      (err) => [ch.tag, err.message],
    );
  }),
);
```

Each channel's upsert outcome (a `Right` result, a `Left`-style error
value, or a rejected promise) is turned into that channel's entry of the
result map; channels are processed independently. -/

/-- Outcome of `fastify.putL1` for one channel. -/
inductive UpsertOutcome where
  | right (v : String)
  | leftE (e : String)
  | thrown (m : String)
deriving DecidableEq, Repr

/-- The `[ch.tag, ...]` pair produced for one channel. -/
def syncEntry (upsert : String → UpsertOutcome) (tag : String) :
    String × String :=
  match upsert tag with
  | .right v => (tag, v)
  | .leftE e => (tag, e)
  | .thrown m => (tag, m)

/-- The `syncResult` map (as an association list, one entry per synced
channel). -/
def syncResults (tags : List String) (upsert : String → UpsertOutcome) :
    List (String × String) :=
  tags.map (syncEntry upsert)

/-! ### l1Routes.js — `process-ious` gating loop

The per-IOU classification of the `for (const [keytag, iouData] of
Object.entries(ious))` loop: failure entries are pushed to `results`,
eligible jobs to `subJobs`, ineligible-but-valid claims are skipped
silently (`continue` with no record).  `BigInt(iouData.iouAmt)` has no
fallback here, so a missing or malformed amount throws out of the
handler (modelled as `thrown`). -/

/-- A pending IOU record as stored in the DB. -/
structure IouEntry where
  txId : Option String := none
  outputIdx : Option String := none
  iouAmt : Option String := none
  sig : Option String := none
deriving DecidableEq, Repr

/-- Result of locating the IOU's channel among the UTxOs at the
validator address (`allUtxos.find` + `utxo2Subbit`): no matching UTxO,
a UTxO that is not an `Opened` channel, or an `Opened` channel with the
given on-chain `subbed` value. -/
inductive ChannelLookup where
  | noUtxo
  | notOpened
  | opened (subbed : Int)
deriving DecidableEq, Repr

/-- How the loop body disposes of one IOU entry. -/
inductive IouOutcome where
  | failure (reason : String)
  | skip
  | job (amt : Int) (sig : String)
  | thrown (msg : String)
deriving DecidableEq, Repr

/-- The body of the `process-ious` gating loop for one entry, given the
channel-lookup outcome for that entry. -/
def classifyIou (lk : ChannelLookup) (r : IouEntry) : IouOutcome :=
  if r.txId.getD "" = "" ∨ r.outputIdx.isNone then
    .failure "Missing UTXO reference"
  else
    match lk with
    | .noUtxo => .failure "UTXO not found"
    | .notOpened => .failure "Channel is not in Opened state"
    | .opened subbed =>
      match r.iouAmt with
      | none => .thrown "TypeError: cannot convert undefined to a BigInt"
      | some s =>
        match jsStringToBigInt s with
        | none => .thrown "SyntaxError: cannot convert string to a BigInt"
        | some iouAmount =>
          if iouAmount ≤ subbed then .skip
          else if sigText { iouAmt := r.iouAmt, sig := r.sig } = "" then
            .failure "Missing IOU signature"
          else .job iouAmount (r.sig.getD "")

/-- The whole gating loop: produces the pre-submission `results` list
(failure records) and the `subJobs` list, or propagates an uncaught
exception. -/
def iouGate (lk : IouEntry → ChannelLookup) :
    List (String × IouEntry) →
    Except String (List (String × Bool × String) × List (String × Int × String))
  | [] => .ok ([], [])
  | (kt, r) :: tl =>
    match classifyIou (lk r) r with
    | .thrown m => .error m
    | .failure e => (iouGate lk tl).map (fun p => ((kt, false, e) :: p.1, p.2))
    | .skip => iouGate lk tl
    | .job a s => (iouGate lk tl).map (fun p => (p.1, (kt, a, s) :: p.2))

/-! ### l1Routes.js — batch vs per-channel fallback submission

Shared shape of `process-closed-channels` and `process-ious`: with a
reference script the eligible jobs go into one `batch.tx` submission
whose `catch` pushes a failure record *for every job* with the same
error; without one, each job is submitted in its own `try`/`catch`, so
a failure is recorded only for that job and the loop continues. -/

/-- One entry of the handler's `results` list. -/
structure SubmitResult where
  tag : String
  success : Bool
  info : String
deriving DecidableEq, Repr

/-- Records appended by the batch path, given the batch submission's
outcome (`ok txHash` or the caught error). -/
def batchSubmitResults (tags : List String) (outcome : Except String String) :
    List SubmitResult :=
  match outcome with
  | .ok txHash => tags.map (fun t => ⟨t, true, txHash⟩)
  | .error e => tags.map (fun t => ⟨t, false, e⟩)

/-- One iteration of the fallback loop: build/sign/submit this job and
record its own outcome. -/
def singleSubmitResult (submit : String → Except String String)
    (t : String) : SubmitResult :=
  match submit t with
  | .ok h => ⟨t, true, h⟩
  | .error e => ⟨t, false, e⟩

/-- Records appended by the fallback loop. -/
def fallbackSubmitResults (tags : List String)
    (submit : String → Except String String) : List SubmitResult :=
  tags.map (singleSubmitResult submit)

/-! ### l1Routes.js — `process-closed-channels` and DRY_RUN

The latest revision's batch settle path destructures `config` (which
carries `DRY_RUN`) but never consults it:

```
const txBuilder = await tx.txs.batch.tx(l, validatorRef, steps);
const unsignedTx = await txBuilder.complete();
const signedTx = await unsignedTx.sign.withWallet().complete();
const txHash = await signedTx.submit();
```

The earlier revision kept in the same file settles per channel and
returns after `complete()` when `config.DRY_RUN` is set:

```
const unsignedTx = await txBuilder.complete();
if (config.DRY_RUN) {
  results.push({ tag: keytag, success: true, dryRun: true });
  continue;
}
const signedTx = await unsignedTx.sign.withWallet().complete();
const txHash = await signedTx.submit();
```

We record the ledger-facing actions each path performs. -/

/-- Ledger-facing actions of a settlement pass. -/
inductive LedgerAction where
  | build
  | sign
  | submit
deriving DecidableEq, Repr

/-- Actions of the latest revision's batch settle path (reference
script configured, `numJobs` eligible jobs).  `dryRun` is the value of
`config.DRY_RUN`, in scope but never read. -/
def batchSettleActions (dryRun : Bool) (numJobs : Nat) : List LedgerAction :=
  if numJobs = 0 then []
  else [.build, .sign, .submit]

/-- Actions of the earlier revision's per-channel settle body
(lines with the `config.DRY_RUN` branch). -/
def settleChannelActionsPrev (dryRun : Bool) : List LedgerAction :=
  if dryRun then [.build]
  else [.build, .sign, .submit]

/-! ### errors.js — `parseBigIntSafe`, `isNetworkError`, `parseLucidError` -/

/-- `parseBigIntSafe(value, fieldName)`: `BigInt` in a `try`, structured
`{ok, ...}` result out.  `.ok` is `{ ok: true, value }`, `.error` is
`{ ok: false, message }`. -/
def parseBigIntSafe (value fieldName : String) : Except String Int :=
  match jsStringToBigInt value with
  | some v => .ok v
  | none =>
    .error ("Invalid " ++ fieldName ++ ": \"" ++ value ++
      "\" is not a valid integer.")

/-- The `NETWORK_PATTERNS` list. -/
def NETWORK_PATTERNS : List String :=
  ["ECONNREFUSED", "ETIMEDOUT", "ENOTFOUND", "fetch failed", "rate limit",
    "429"]

/-- Line terminators that `.` does not cross in a JS regex. -/
def jsLineTerm (c : Char) : Bool :=
  c = '\n' || c = '\r' || c.toNat = 0x2028 || c.toNat = 0x2029

/-- Lower-cased characters, for the regex's `i` flag. -/
def lcList (l : List Char) : List Char :=
  l.map Char.toLower

/-- Does `5\d{2}` match at the head of `l`? -/
def fiveDigitsAt : List Char → Bool
  | '5' :: a :: b :: _ => a.isDigit && b.isDigit
  | _ => false

/-- Does `.*5\d{2}` match at the head of `l`? -/
def after5dd : List Char → Bool
  | [] => false
  | c :: tl => fiveDigitsAt (c :: tl) || (!jsLineTerm c && after5dd tl)

/-- Does `.*Blockfrost` (case-insensitive) match at the head of `l`? -/
def afterBF : List Char → Bool
  | [] => false
  | c :: tl =>
    leadsWith (lcList "Blockfrost".data) (lcList (c :: tl)) ||
      (!jsLineTerm c && afterBF tl)

/-- Search for `Blockfrost.*5\d{2}` (case-insensitive) anywhere in `l`. -/
def bfThen5xx : List Char → Bool
  | [] => false
  | c :: tl =>
    (leadsWith (lcList "Blockfrost".data) (lcList (c :: tl)) &&
      after5dd ((c :: tl).drop 10)) || bfThen5xx tl

/-- Search for `5\d{2}.*Blockfrost` (case-insensitive) anywhere in `l`. -/
def fddThenBF : List Char → Bool
  | [] => false
  | c :: tl =>
    (fiveDigitsAt (c :: tl) && afterBF ((c :: tl).drop 3)) || fddThenBF tl

/-- `BLOCKFROST_5XX.test(s)` for
`/Blockfrost.*5\d{2}|5\d{2}.*Blockfrost/i`. -/
def blockfrost5xxTest (s : String) : Bool :=
  bfThen5xx s.data || fddThenBF s.data

/-- A JS `Error` as the classifier reads it: `String(error?.message ??
"")` and `String(error?.cause ?? "")`. -/
structure JsError where
  message : String
  cause : String := ""
deriving DecidableEq, Repr

/-- `isNetworkError(error)` from errors.js. -/
def isNetworkError (e : JsError) : Bool :=
  let combined := e.message ++ " " ++ e.cause
  NETWORK_PATTERNS.any (fun p => strIncludes combined p) ||
    blockfrost5xxTest combined

/-- The application/validation patterns `parseLucidError` checks before
its network branch. -/
def appPattern (m : String) : Bool :=
  strIncludes m "not have enough funds" || strIncludes m "minimum ADA" ||
    strIncludes m "minAda" || strIncludes m "EMPTY_UTXO" ||
    strIncludes m "No UTxO"

/-- `parseLucidError(error, log)` from errors.js (the returned
`{ statusCode, message }` pair; the log call is a side effect). -/
def parseLucidError (e : JsError) : Nat × String :=
  let msg := e.message
  if strIncludes msg "not have enough funds" && strIncludes msg "collateral" then
    (400, "Your wallet does not have enough ADA for transaction collateral.")
  else if strIncludes msg "not have enough funds" then
    (400,
      "Your wallet does not have enough ADA to cover this transaction. Try a smaller amount.")
  else if strIncludes msg "minimum ADA" || strIncludes msg "minAda" then
    (400, "Not enough ADA for the minimum change output. Try a smaller amount.")
  else if strIncludes msg "EMPTY_UTXO" || strIncludes msg "No UTxO" then
    (400,
      "No UTxOs available. If you recently submitted a transaction, wait for confirmation.")
  else if isNetworkError e then
    (503, "Unable to reach the Cardano network. Try again shortly.")
  else if blockfrost5xxTest msg then
    (503, "Cardano network indexer temporarily unavailable.")
  else (500, "Transaction could not be built. Please try again.")

/-! ### l1Routes.js — build-open amount validation

```
const parsed = parseBigIntSafe(amount, "amount");
if (!parsed.ok) return res.badRequest(parsed.message);
const amountBigInt = parsed.value;
if (amountBigInt <= 0n) return res.badRequest("Amount must be greater than 0");
```
-/

/-- The build-open handler's amount validation: a structured rejection
(`badRequest` message) or the accepted amount. -/
def buildOpenValidateAmount (amount : String) : Except String Int :=
  match parseBigIntSafe amount "amount" with
  | .error m => .error m
  | .ok a => if a ≤ 0 then .error "Amount must be greater than 0" else .ok a

end SubbitMan

namespace SubbitMan

/-- C1: `shouldSub` is true iff the claim exists, is signed, and its
amount strictly exceeds `currentSub + threshold`; equality at the
boundary yields false (`7000000` vs `5000000 + 2000000`), and
`7000001` yields true. -/
theorem shouldSub_spec :
    (∀ (d : Option IouData) (c t : Int),
      shouldSub d c t = .ok true ↔
        ∃ r a, d = some r ∧ sigText r ≠ "" ∧ amtParse r = some a ∧ c + t < a) ∧
    shouldSub (some { iouAmt := some "7000000", sig := some "abcd" })
        5000000 2000000 = .ok false ∧
    shouldSub (some { iouAmt := some "7000001", sig := some "abcd" })
        5000000 2000000 = .ok true := by
  refine ⟨fun d c t => ?_, rfl, rfl⟩
  constructor
  · intro h
    match d with
    | none => simp [shouldSub] at h
    | some r =>
      by_cases hs : sigText r = ""
      · simp [shouldSub, hs] at h
      · match ha : amtParse r with
        | none => simp [shouldSub, hs, ha] at h
        | some a =>
          by_cases hle : a ≤ c + t
          · simp [shouldSub, hs, ha, hle] at h
          · exact ⟨r, a, rfl, hs, ha, by omega⟩
  · rintro ⟨r, a, rfl, hs, ha, hlt⟩
    have hle : ¬ a ≤ c + t := by omega
    simp [shouldSub, hs, ha, hle]

/-- C2: `shouldSettle` is true iff the state is `Closed`, the claim
exists, its amount is positive, and its signature is non-empty; it is
false (not an error) for non-`Closed` states, for an absent claim, and
for a claim whose amount is non-positive or whose signature is empty. -/
theorem shouldSettle_spec :
    (∀ (k : String) (d : Option IouData),
      shouldSettle k d = .ok true ↔
        k = "Closed" ∧
          ∃ r a, d = some r ∧ amtParse r = some a ∧ 0 < a ∧ sigText r ≠ "") ∧
    (∀ (k : String) (d : Option IouData), k ≠ "Closed" →
      shouldSettle k d = .ok false) ∧
    (∀ k : String, shouldSettle k none = .ok false) ∧
    (∀ (k : String) (r : IouData) (a : Int), amtParse r = some a →
      (a ≤ 0 ∨ sigText r = "") → shouldSettle k (some r) = .ok false) := by
  refine ⟨fun k d => ?_, fun k d hk => by simp [shouldSettle, hk],
    fun k => by by_cases hk : k = "Closed" <;> simp [shouldSettle, hk],
    fun k r a ha hor => ?_⟩
  · constructor
    · intro h
      by_cases hk : k = "Closed"
      · subst hk
        refine ⟨rfl, ?_⟩
        match d with
        | none => simp [shouldSettle] at h
        | some r =>
          match ha : amtParse r with
          | none => simp [shouldSettle, ha] at h
          | some a =>
            by_cases hle : a ≤ 0
            · simp [shouldSettle, ha, hle] at h
            · by_cases hs : sigText r = ""
              · simp [shouldSettle, ha, hle, hs] at h
              · exact ⟨r, a, rfl, ha, by omega, hs⟩
      · simp [shouldSettle, hk] at h
    · rintro ⟨rfl, r, a, rfl, ha, hpos, hs⟩
      have hle : ¬ a ≤ 0 := by omega
      simp [shouldSettle, ha, hle, hs]
  · by_cases hk : k = "Closed"
    · subst hk
      rcases hor with hle | hs
      · simp [shouldSettle, ha, hle]
      · by_cases hle : a ≤ 0
        · simp [shouldSettle, ha, hle]
        · simp [shouldSettle, ha, hle, hs]
    · simp [shouldSettle, hk]

/-- Witness for `shouldSettle_spec`: its hypotheses hold at `k = "Opened"`
and at a zero-amount signed claim. -/
theorem shouldSettle_spec_witness :
    shouldSettle "Opened" (some { iouAmt := some "5000000", sig := some "abcd" })
        = .ok false ∧
    shouldSettle "Closed" (some { iouAmt := some "0", sig := some "abcd" })
        = .ok false :=
  ⟨shouldSettle_spec.2.1 "Opened" _ (by decide),
   shouldSettle_spec.2.2.2 "Closed" _ 0 rfl (Or.inl le_rfl)⟩

/-- The loop makes between 1 and `fuel` attempts and sleeps exactly
`delayMs` between consecutive attempts. -/
theorem retryLoop_bounds (fetch : Nat → List α) (delayMs : Nat) :
    ∀ fuel attempt, 1 ≤ fuel →
      1 ≤ (retryLoop fetch delayMs attempt fuel).1 ∧
      (retryLoop fetch delayMs attempt fuel).1 ≤ fuel ∧
      (retryLoop fetch delayMs attempt fuel).2.1 =
        delayMs * ((retryLoop fetch delayMs attempt fuel).1 - 1) := by
  intro fuel
  induction fuel with
  | zero => intro attempt h; omega
  | succ f ih =>
    intro attempt _
    by_cases he : (fetch attempt).isEmpty
    · by_cases hf : f = 0
      · subst hf
        simp [retryLoop, he]
      · have hrec := ih (attempt + 1) (by omega)
        simp only [retryLoop, he, if_true, hf, if_false, ite_true, ite_false]
        refine ⟨by omega, by omega, ?_⟩
        rcases hrec with ⟨h1, _, h3⟩
        have : (retryLoop fetch delayMs (attempt + 1) f).1 + 1 - 1 =
            ((retryLoop fetch delayMs (attempt + 1) f).1 - 1) + 1 := by omega
        rw [this, h3, Nat.mul_succ]
        omega
    · simp [retryLoop, he]

/-- If the first non-empty fetch happens at attempt `k` inside the loop
window, the loop stops there and uses that result. -/
theorem retryLoop_first_hit (fetch : Nat → List α) (delayMs : Nat) :
    ∀ fuel attempt k, attempt ≤ k → k < attempt + fuel →
      fetch k ≠ [] → (∀ j, attempt ≤ j → j < k → fetch j = []) →
      retryLoop fetch delayMs attempt fuel =
        (k - attempt + 1, delayMs * (k - attempt), fetch k) := by
  intro fuel
  induction fuel with
  | zero => intro attempt k h1 h2; omega
  | succ f ih =>
    intro attempt k h1 h2 hk hprev
    by_cases heq : attempt = k
    · subst heq
      have : ¬ (fetch attempt).isEmpty := by
        simpa [List.isEmpty_iff] using hk
      simp [retryLoop, this]
    · have hlt : attempt < k := by omega
      have hemp : (fetch attempt).isEmpty := by
        simp [List.isEmpty_iff, hprev attempt le_rfl hlt]
      have hf : f ≠ 0 := by omega
      have hrec := ih (attempt + 1) k (by omega) (by omega) hk
        (fun j hj1 hj2 => hprev j (by omega) hj2)
      simp only [retryLoop, hemp, if_true, hf, if_false, ite_true, ite_false, hrec]
      have h1 : k - (attempt + 1) + 1 + 1 = k - attempt + 1 := by omega
      have h2 : delayMs + delayMs * (k - (attempt + 1)) = delayMs * (k - attempt) := by
        have hm : k - attempt = (k - (attempt + 1)) + 1 := by omega
        rw [hm, Nat.mul_succ]
        omega
      rw [h1, h2]

/-- If every fetch in the window is empty, the loop exhausts its fuel
and ends with an empty result. -/
theorem retryLoop_all_empty (fetch : Nat → List α) (delayMs : Nat) :
    ∀ fuel attempt, 1 ≤ fuel →
      (∀ j, attempt ≤ j → j < attempt + fuel → fetch j = []) →
      retryLoop fetch delayMs attempt fuel =
        (fuel, delayMs * (fuel - 1), []) := by
  intro fuel
  induction fuel with
  | zero => intro attempt h; omega
  | succ f ih =>
    intro attempt _ hall
    have hemp : (fetch attempt).isEmpty := by
      simp [List.isEmpty_iff, hall attempt le_rfl (by omega)]
    by_cases hf : f = 0
    · subst hf
      have := hall attempt le_rfl (by omega)
      simp [retryLoop, hemp, this]
    · have hrec := ih (attempt + 1) (by omega)
        (fun j hj1 hj2 => hall j (by omega) (by omega))
      simp only [retryLoop, hemp, if_true, hf, if_false, ite_true, ite_false, hrec]
      refine Prod.ext (by simp) (Prod.ext ?_ rfl)
      simp
      cases f with
      | zero => omega
      | succ g =>
        simp [Nat.mul_succ]
        omega

/-- The gating loop is compositional over concatenation: entries are
classified independently and their records concatenated in order. -/
theorem iouGate_append (lk : IouEntry → ChannelLookup) :
    ∀ l1 l2, iouGate lk (l1 ++ l2) =
      (iouGate lk l1).bind (fun p1 =>
        (iouGate lk l2).map (fun p2 => (p1.1 ++ p2.1, p1.2 ++ p2.2))) := by
  intro l1 l2
  induction l1 with
  | nil =>
    simp only [List.nil_append, iouGate]
    cases h : iouGate lk l2 <;> simp [Except.bind, Except.map]
  | cons hd tl ih =>
    obtain ⟨kt, r⟩ := hd
    simp only [List.cons_append, iouGate, ih]
    cases hc : classifyIou (lk r) r <;>
      cases h1 : iouGate lk tl <;>
      cases h2 : iouGate lk l2 <;>
      simp [ih, h1, h2, Except.bind, Except.map]

/-- C3: a cycle invoked while one is running returns the skipped result
and leaves the flag (and hence the running cycle) untouched; a cycle
invoked while idle always ends with the flag back at idle, whatever the
steps did (including a step that threw), so the next invocation is not
skipped. -/
theorem runLiaisonCycle_single_flight :
    (∀ (α : Type) (s t u : Except String α),
      runLiaisonCycle true s t u = (true, .skipped)) ∧
    (∀ (α : Type) (s t u : Except String α),
      (runLiaisonCycle false s t u).1 = false) ∧
    (∀ (α : Type) (s t u s2 t2 u2 : Except String α),
      ∃ r, (runLiaisonCycle (runLiaisonCycle false s t u).1 s2 t2 u2).2 =
        CycleReturn.completed r) :=
  ⟨fun α s t u => rfl, fun α s t u => rfl,
   fun α s t u s2 t2 u2 => ⟨_, rfl⟩⟩

/-- C4: the synchronizer fetch loop makes at most 5 attempts with a
3000 ms sleep between consecutive attempts, stops at the first
non-empty result and uses it (so `[], [], [ch]` takes exactly 3
attempts), and yields an empty set — a value, not an exception — when
all 5 attempts come back empty. -/
theorem syncRetry_spec :
    (∀ (α : Type) (fetch : Nat → List α),
      (syncFetchStates fetch).1 ≤ 5 ∧
      (syncFetchStates fetch).2.1 = 3000 * ((syncFetchStates fetch).1 - 1)) ∧
    (∀ (α : Type) (fetch : Nat → List α) (k : Nat), 1 ≤ k → k ≤ 5 →
      fetch k ≠ [] → (∀ j, 1 ≤ j → j < k → fetch j = []) →
      syncFetchStates fetch = (k, 3000 * (k - 1), fetch k)) ∧
    (∀ (α : Type) (fetch : Nat → List α),
      (∀ j, 1 ≤ j → j ≤ 5 → fetch j = []) →
      syncFetchStates fetch = (5, 12000, [])) ∧
    syncFetchStates (fun n => if n = 3 then ["ch"] else []) = (3, 6000, ["ch"]) := by
  refine ⟨fun α fetch => ?_, fun α fetch k hk1 hk5 hne hprev => ?_,
    fun α fetch hall => ?_, rfl⟩
  · have h := retryLoop_bounds fetch 3000 5 1 (by omega)
    exact ⟨h.2.1, h.2.2⟩
  · have h := retryLoop_first_hit fetch 3000 5 1 k hk1 (by omega) hne
      (fun j hj1 hj2 => hprev j hj1 hj2)
    have hk : k - 1 + 1 = k := by omega
    rw [syncFetchStates, h, hk]
  · have h := retryLoop_all_empty fetch 3000 5 1 (by omega)
      (fun j hj1 hj2 => hall j hj1 (by omega))
    rw [syncFetchStates, h]

/-- Witness for `syncRetry_spec`: the early-stop clause applied to the
sequence `[], [7], ...`. -/
theorem syncRetry_spec_witness :
    syncFetchStates (fun n => if n = 2 then [7] else []) = (2, 3000, [7]) := by
  have h := syncRetry_spec.2.1 Nat (fun n => if n = 2 then [7] else []) 2
    (by omega) (by omega) (by decide)
    (by
      intro j h1 h2
      have hj : j = 1 := by omega
      subst hj
      rfl)
  simpa using h

/-- `dropWhile` is the identity when no element satisfies the predicate. -/
theorem dropWhile_eq_self_of (p : Char → Bool) (l : List Char)
    (h : ∀ c ∈ l, p c = false) : l.dropWhile p = l := by
  cases l with
  | nil => rfl
  | cons c tl => simp [List.dropWhile_cons, h c (by simp)]

/-- Trimming a string with no whitespace characters is the identity. -/
theorem jsTrim_eq_self (l : List Char)
    (h : ∀ c ∈ l, jsWhitespace c = false) : jsTrim l = l := by
  unfold jsTrim
  rw [dropWhile_eq_self_of _ _ h,
    dropWhile_eq_self_of _ _ (fun c hc => h c (List.mem_reverse.mp hc)),
    List.reverse_reverse]

/-- A digit character is not whitespace. -/
theorem digit_not_ws (c : Char) (h : isDigitChar c = true) :
    jsWhitespace c = false := by
  simp [isDigitChar] at h
  simp [jsWhitespace]
  omega

/-- On a decimal digit, `radixDigitVal 10` yields its value. -/
theorem radixDigitVal_digit (c : Char) (h : isDigitChar c = true) :
    radixDigitVal 10 c = some (digitVal c) := by
  simp [isDigitChar] at h
  rw [radixDigitVal]
  simp only [if_pos h]
  have : c.toNat - 48 < 10 := by omega
  simp [digitVal, this]

/-- The accumulator recursion of `radixVal.go` on a run of decimal
digits computes the standard base-10 value. -/
theorem radixValGo_digits :
    ∀ (l : List Char) (acc : Nat), l.all isDigitChar = true →
      radixVal.go 10 l acc =
        some (acc * 10 ^ l.length + Nat.ofDigits 10 ((l.map digitVal).reverse)) := by
  intro l
  induction l with
  | nil => intro acc h; simp [radixVal.go, Nat.ofDigits]
  | cons c tl ih =>
    intro acc h
    simp only [List.all_cons, Bool.and_eq_true] at h
    obtain ⟨hc, htl⟩ := h
    simp only [radixVal.go, radixDigitVal_digit c hc]
    rw [ih _ htl]
    congr 1
    rw [List.map_cons, List.reverse_cons, Nat.ofDigits_append]
    simp [Nat.ofDigits]
    ring

/-- `radixVal 10` on a non-empty digit run is its base-10 value. -/
theorem radixVal_digits (l : List Char) (hne : l ≠ [])
    (h : l.all isDigitChar = true) :
    radixVal 10 l = some (Nat.ofDigits 10 ((l.map digitVal).reverse)) := by
  cases l with
  | nil => exact absurd rfl hne
  | cons c tl =>
    show radixVal.go 10 (c :: tl) 0 = _
    rw [radixValGo_digits _ 0 h]
    simp

/-- `BigInt` on a non-empty string of decimal digits yields exactly the
denoted non-negative integer. -/
theorem jsStringToBigInt_digits (s : String) (hne : s.data ≠ [])
    (h : s.data.all isDigitChar = true) :
    jsStringToBigInt s =
      some ((Nat.ofDigits 10 ((s.data.map digitVal).reverse) : Nat) : Int) := by
  obtain ⟨c, rest, hcr⟩ : ∃ c rest, s.data = c :: rest := by
    cases hd : s.data with
    | nil => exact absurd hd hne
    | cons c rest => exact ⟨c, rest, rfl⟩
  have hall : ∀ x ∈ s.data, isDigitChar x = true := by
    intro x hx
    exact List.all_eq_true.mp h x hx
  have ht : jsTrim s.data = c :: rest := by
    rw [jsTrim_eq_self _ (fun x hx => digit_not_ws x (hall x hx)), hcr]
  have hc : isDigitChar c = true := hall c (by rw [hcr]; simp)
  have hcN : 48 ≤ c.toNat ∧ c.toNat ≤ 57 := by simpa [isDigitChar] using hc
  have hplus : ¬ c = '+' := by
    intro heq
    rw [heq] at hcN
    simp at hcN
  have hminus : ¬ c = '-' := by
    intro heq
    rw [heq] at hcN
    simp at hcN
  rw [jsStringToBigInt, ht]
  simp only [if_neg hplus, if_neg hminus]
  have hdec : radixVal 10 (c :: rest) =
      some (Nat.ofDigits 10 (((c :: rest).map digitVal).reverse)) := by
    apply radixVal_digits _ (by simp)
    rw [← hcr]
    exact h
  by_cases h0 : c = '0'
  · rw [if_pos h0]
    subst h0
    cases hr : rest with
    | nil =>
      rw [hcr, hr]
      decide
    | cons x rest2 =>
      rw [hr] at hdec hcr
      have hx : isDigitChar x = true := by
        apply hall
        rw [hcr]
        simp
      have hxN : 48 ≤ x.toNat ∧ x.toNat ≤ 57 := by simpa [isDigitChar] using hx
      have hno : ∀ (ch : Char), ch.toNat < 48 ∨ 57 < ch.toNat → ¬ x = ch := by
        intro ch hch heq
        rw [heq] at hxN
        omega
      have hxx : ¬ (x = 'x' ∨ x = 'X') := by
        rintro (h | h) <;> revert h
        · exact hno 'x' (by decide)
        · exact hno 'X' (by decide)
      have hoo : ¬ (x = 'o' ∨ x = 'O') := by
        rintro (h | h) <;> revert h
        · exact hno 'o' (by decide)
        · exact hno 'O' (by decide)
      have hbb : ¬ (x = 'b' ∨ x = 'B') := by
        rintro (h | h) <;> revert h
        · exact hno 'b' (by decide)
        · exact hno 'B' (by decide)
      simp only [hxx, hoo, hbb, ite_false, if_false]
      rw [hdec, hcr]
      simp
  · rw [if_neg h0, hdec, hcr]
    simp

/-- `BigInt` on `'-'` followed by a non-empty digit run yields exactly
the denoted negative integer. -/
theorem jsStringToBigInt_neg_digits (s : String) (l : List Char)
    (hd : s.data = '-' :: l) (hne : l ≠ [])
    (h : l.all isDigitChar = true) :
    jsStringToBigInt s =
      some (-((Nat.ofDigits 10 ((l.map digitVal).reverse) : Nat) : Int)) := by
  have hall : ∀ x ∈ l, isDigitChar x = true := fun x hx =>
    List.all_eq_true.mp h x hx
  have ht : jsTrim s.data = '-' :: l := by
    rw [hd]
    apply jsTrim_eq_self
    intro x hx
    rcases List.mem_cons.mp hx with heq | hm
    · rw [heq]
      decide
    · exact digit_not_ws x (hall x hm)
  rw [jsStringToBigInt, ht]
  have : ¬ ('-' : Char) = '+' := by decide
  simp only [if_neg this, if_pos rfl]
  rw [radixVal_digits l hne h]
  simp

/-- `leadsWith` holds on a list extended on the right. -/
theorem leadsWith_append_self (p b : List Char) :
    leadsWith p (p ++ b) = true := by
  induction p with
  | nil => rfl
  | cons c tl ih => simp [leadsWith, ih]

/-- A list contains any of its middle segments. -/
theorem hasSub_middle (a p b : List Char) :
    hasSub (a ++ (p ++ b)) p = true := by
  induction a with
  | nil =>
    cases hpb : p ++ b with
    | nil =>
      have : p = [] := by
        cases p with
        | nil => rfl
        | cons c tl => simp at hpb
      simp [this, hasSub]
    | cons c tl =>
      simp only [List.nil_append, hpb, hasSub]
      rw [← hpb, leadsWith_append_self]
      simp
  | cons x xs ih => simp [hasSub, ih]

/-- C5: with a configured threshold of 2000000 and an `Opened` channel
at `subbed = 5000000`, the `process-ious` loop enqueues a sub job for a
signed claim of 6000000 — it gates only on `iouAmt > subbed` — although
`shouldSub` at that threshold says the claim must not be submitted. -/
theorem processIous_threshold_divergence :
    classifyIou (.opened 5000000)
      { txId := some "aa", outputIdx := some "0",
        iouAmt := some "6000000", sig := some "abcd" } =
      .job 6000000 "abcd" ∧
    iouGate (fun _ => .opened 5000000)
      [("kt", ⟨some "aa", some "0", some "6000000", some "abcd"⟩)] =
      .ok ([], [("kt", 6000000, "abcd")]) ∧
    shouldSub (some { iouAmt := some "6000000", sig := some "abcd" })
      5000000 2000000 = .ok false :=
  ⟨rfl, rfl, rfl⟩

/-- C6: a failed batch submission produces one failure record per batch
member, all carrying the same error; the fallback loop produces exactly
one record per channel, each depending only on that channel's own
submission outcome, so one channel's failure leaves its siblings'
processing unchanged. -/
theorem batchFallback_spec :
    (∀ (tags : List String) (e : String),
      (batchSubmitResults tags (.error e)).length = tags.length) ∧
    (∀ (tags : List String) (e : String) (r : SubmitResult),
      r ∈ batchSubmitResults tags (.error e) →
        r.success = false ∧ r.info = e) ∧
    (∀ (tags : List String) (submit : String → Except String String),
      (fallbackSubmitResults tags submit).length = tags.length) ∧
    (∀ (tags : List String) (submit : String → Except String String)
      (i : Nat),
      (fallbackSubmitResults tags submit)[i]? =
        (tags[i]?).map (singleSubmitResult submit)) ∧
    (∀ (submit : String → Except String String) (t e : String),
      submit t = .error e → singleSubmitResult submit t = ⟨t, false, e⟩) := by
  refine ⟨fun tags e => by simp [batchSubmitResults],
    fun tags e r hr => ?_,
    fun tags submit => by simp [fallbackSubmitResults],
    fun tags submit i => by simp [fallbackSubmitResults, List.getElem?_map],
    fun submit t e h => by simp [singleSubmitResult, h]⟩
  simp only [batchSubmitResults, List.mem_map] at hr
  obtain ⟨t, _, rfl⟩ := hr
  exact ⟨rfl, rfl⟩

/-- Witness for `batchFallback_spec`: a two-element batch whose
submission fails, and a fallback submission that fails for one tag. -/
theorem batchFallback_spec_witness :
    ((batchSubmitResults ["t1", "t2"] (.error "boom")).length = 2 ∧
      (⟨"t1", false, "boom"⟩ : SubmitResult).success = false) ∧
    singleSubmitResult (fun _ => .error "boom") "t9" = ⟨"t9", false, "boom"⟩ :=
  ⟨⟨batchFallback_spec.1 ["t1", "t2"] "boom",
    (batchFallback_spec.2.1 ["t1", "t2"] "boom" ⟨"t1", false, "boom"⟩
      (by simp [batchSubmitResults])).1⟩,
   batchFallback_spec.2.2.2.2 (fun _ => .error "boom") "t9" "boom" rfl⟩

/-- C7: the current `process-closed-channels` batch path submits the
settlement even when `config.DRY_RUN` is true (for any eligible job),
while the earlier revision's per-channel path stopped after building
the transaction under dry-run. -/
theorem settleDryRun_divergence :
    LedgerAction.submit ∈ batchSettleActions true 1 ∧
    settleChannelActionsPrev true = [LedgerAction.build] := by
  decide

/-- C8: each synced channel's persistence outcome (including a rejected
upsert) becomes exactly that channel's entry of the sync result map,
independent of the other channels; and in the `process-ious` gating
loop, an entry classified as a failure contributes exactly its own
failure record while the records and jobs of its siblings are exactly
those they would produce without it. -/
theorem failureIsolation_spec :
    (∀ (tags : List String) (upsert : String → UpsertOutcome),
      (syncResults tags upsert).length = tags.length) ∧
    (∀ (tags : List String) (upsert : String → UpsertOutcome) (i : Nat),
      (syncResults tags upsert)[i]? = (tags[i]?).map (syncEntry upsert)) ∧
    (∀ (upsert : String → UpsertOutcome) (t m : String),
      upsert t = .thrown m → syncEntry upsert t = (t, m)) ∧
    (∀ (lk : IouEntry → ChannelLookup) (l1 l2 : List (String × IouEntry))
      (kt : String) (r : IouEntry) (e : String),
      classifyIou (lk r) r = .failure e →
      iouGate lk (l1 ++ (kt, r) :: l2) =
        (iouGate lk l1).bind (fun p1 =>
          (iouGate lk l2).map (fun p2 =>
            (p1.1 ++ (kt, false, e) :: p2.1, p1.2 ++ p2.2)))) := by
  refine ⟨fun tags upsert => by simp [syncResults],
    fun tags upsert i => by simp [syncResults, List.getElem?_map],
    fun upsert t m h => by simp [syncEntry, h],
    fun lk l1 l2 kt r e hc => ?_⟩
  rw [iouGate_append]
  have h2 : iouGate lk ((kt, r) :: l2) =
      (iouGate lk l2).map (fun p => ((kt, false, e) :: p.1, p.2)) := by
    simp [iouGate, hc]
  rw [h2]
  cases iouGate lk l1 <;> cases iouGate lk l2 <;>
    simp [Except.bind, Except.map]

/-- Witness for `failureIsolation_spec`: a rejected upsert's message
becomes its channel's entry, and a malformed-reference IOU between two
good ones yields exactly its own failure plus its siblings' jobs. -/
theorem failureIsolation_spec_witness :
    syncEntry (fun _ => .thrown "boom") "tag1" = ("tag1", "boom") ∧
    iouGate (fun _ => .opened 0)
      [("k1", ⟨some "t", some "0", some "5", some "s1"⟩),
       ("k2", ⟨none, none, none, none⟩),
       ("k3", ⟨some "t", some "0", some "7", some "s3"⟩)] =
      .ok ([("k2", false, "Missing UTXO reference")],
        [("k1", 5, "s1"), ("k3", 7, "s3")]) :=
  ⟨failureIsolation_spec.2.2.1 (fun _ => .thrown "boom") "tag1" "boom" rfl,
   failureIsolation_spec.2.2.2 (fun _ => .opened 0)
     [("k1", ⟨some "t", some "0", some "5", some "s1"⟩)]
     [("k3", ⟨some "t", some "0", some "7", some "s3"⟩)]
     "k2" ⟨none, none, none, none⟩
     "Missing UTXO reference" rfl⟩

/-- C9 counterexample: an error whose message indicates connection
refusal (`ECONNREFUSED`, so `isNetworkError` is true) but also matches
the insufficient-funds pattern is mapped by `parseLucidError` to a 400
response, not a 503. -/
theorem parseLucidError_network_counterexample :
    isNetworkError
      { message := "Your wallet does not have enough funds: ECONNREFUSED",
        cause := "" } = true ∧
    (parseLucidError
      { message := "Your wallet does not have enough funds: ECONNREFUSED",
        cause := "" }).1 = 400 :=
  ⟨rfl, rfl⟩

/-- C9 (amended): `isNetworkError` is true for every error whose
message-and-cause text contains a network pattern or matches the
Blockfrost 5xx pattern; `parseLucidError` maps such an error to the 503
temporarily-unavailable response provided its message matches none of
the application/validation patterns, which are checked first; and every
error whose message matches an application/validation pattern gets a
400 response. -/
theorem errorClassifier_spec :
    (∀ m c : String,
      (NETWORK_PATTERNS.any fun p => strIncludes (m ++ " " ++ c) p) = true →
      isNetworkError { message := m, cause := c } = true) ∧
    (∀ m c : String, blockfrost5xxTest (m ++ " " ++ c) = true →
      isNetworkError { message := m, cause := c } = true) ∧
    (∀ e : JsError, isNetworkError e = true → appPattern e.message = false →
      parseLucidError e =
        (503, "Unable to reach the Cardano network. Try again shortly.")) ∧
    (∀ e : JsError, appPattern e.message = true →
      (parseLucidError e).1 = 400) := by
  refine ⟨fun m c h => by simp [isNetworkError, h],
    fun m c h => by simp [isNetworkError, h],
    fun e hn ha => ?_, fun e ha => ?_⟩
  · simp only [appPattern, Bool.or_eq_false_iff] at ha
    obtain ⟨⟨⟨⟨h1, h2⟩, h3⟩, h4⟩, h5⟩ := ha
    simp [parseLucidError, h1, h2, h3, h4, h5, hn]
  · by_cases h1 : strIncludes e.message "not have enough funds" <;>
      by_cases h1c : strIncludes e.message "collateral" <;>
      by_cases h2 : strIncludes e.message "minimum ADA" <;>
      by_cases h3 : strIncludes e.message "minAda" <;>
      by_cases h4 : strIncludes e.message "EMPTY_UTXO" <;>
      by_cases h5 : strIncludes e.message "No UTxO" <;>
      simp_all [parseLucidError, appPattern]

/-- Witness for `errorClassifier_spec`: a pure connection-refused error
is classified as a network error and mapped to 503. -/
theorem errorClassifier_spec_witness :
    parseLucidError { message := "ECONNREFUSED", cause := "" } =
      (503, "Unable to reach the Cardano network. Try again shortly.") :=
  errorClassifier_spec.2.2.1 { message := "ECONNREFUSED", cause := "" } rfl rfl

/-- C10: `parseBigIntSafe` always returns a structured result — either
the exactly denoted integer (shown here for decimal strings, with and
without a leading minus sign) or an error message that names the field;
and the `build-open` amount validation therefore turns any malformed
amount into a structured rejection. -/
theorem parseBigIntSafe_spec :
    (∀ value fieldName : String,
      (∃ v, parseBigIntSafe value fieldName = .ok v) ∨
        parseBigIntSafe value fieldName =
          .error ("Invalid " ++ fieldName ++ ": \"" ++ value ++
            "\" is not a valid integer.")) ∧
    (∀ value fieldName m : String,
      parseBigIntSafe value fieldName = .error m →
      strIncludes m fieldName = true) ∧
    (∀ value fieldName : String, value.data ≠ [] →
      value.data.all isDigitChar = true →
      parseBigIntSafe value fieldName =
        .ok ((Nat.ofDigits 10 ((value.data.map digitVal).reverse) : Nat) : Int)) ∧
    (∀ (value fieldName : String) (l : List Char),
      value.data = '-' :: l → l ≠ [] → l.all isDigitChar = true →
      parseBigIntSafe value fieldName =
        .ok (-((Nat.ofDigits 10 ((l.map digitVal).reverse) : Nat) : Int))) ∧
    (∀ value : String, jsStringToBigInt value = none →
      ∃ m, buildOpenValidateAmount value = .error m) := by
  refine ⟨fun value fieldName => ?_, fun value fieldName m hm => ?_,
    fun value fieldName hne h => ?_, fun value fieldName l hd hne h => ?_,
    fun value h => ?_⟩
  · cases hp : jsStringToBigInt value with
    | some v => exact Or.inl ⟨v, by simp [parseBigIntSafe, hp]⟩
    | none => exact Or.inr (by simp [parseBigIntSafe, hp])
  · cases hp : jsStringToBigInt value with
    | some v => simp [parseBigIntSafe, hp] at hm
    | none =>
      simp only [parseBigIntSafe, hp, Except.error.injEq] at hm
      subst hm
      have : ("Invalid " ++ fieldName ++ ": \"" ++ value ++
          "\" is not a valid integer.").data =
          "Invalid ".data ++ (fieldName.data ++
            (": \"" ++ value ++ "\" is not a valid integer.").data) := by
        simp [String.data_append]
      simp only [strIncludes, this]
      exact hasSub_middle _ _ _
  · simp [parseBigIntSafe, jsStringToBigInt_digits value hne h]
  · simp [parseBigIntSafe, jsStringToBigInt_neg_digits value l hd hne h]
  · refine ⟨"Invalid amount: \"" ++ value ++ "\" is not a valid integer.", ?_⟩
    simp [buildOpenValidateAmount, parseBigIntSafe, h]

/-- Witness for `parseBigIntSafe_spec`: the decimal clauses applied to
`"123"` and `"-45"`, and the malformed-amount clause to `"12.5"`. -/
theorem parseBigIntSafe_spec_witness :
    parseBigIntSafe "123" "amount" = .ok 123 ∧
    parseBigIntSafe "-45" "amount" = .ok (-45) ∧
    ∃ m, buildOpenValidateAmount "12.5" = .error m := by
  refine ⟨?_, ?_, parseBigIntSafe_spec.2.2.2.2 "12.5" rfl⟩
  · have h := parseBigIntSafe_spec.2.2.1 "123" "amount" (by decide) (by decide)
    rw [h]
    rfl
  · have h := parseBigIntSafe_spec.2.2.2.1 "-45" "amount" ['4', '5'] rfl
      (by decide) (by decide)
    rw [h]
    rfl

end SubbitMan
